import Mathlib

/-!
Shallow embedding of `sql_grader/problem.py` (xblock-sql-grader).

The grading core is `SqlProblem`: it clones a reference SQLite database per
evaluation, runs a submission query (with optional modification and
verification queries) against the clone, and compares the resulting rows
against a cached answer result.

Modelling choices:
* SQLite row values are modelled by `SqlVal` (NULL, integer, text); a row is a
  list of values, and a query result is a list of rows.
* Python's `str` applied to a row tuple (the sort key in `compare_rows`) is
  modelled character-faithfully by `pyStr`; Python string `<` is code-point
  lexicographic order, modelled by `pyStrLt`; Python's stable `sorted` is
  modelled by `List.mergeSort` (a stable sort).
* The SQLite engine itself is external; it is modelled by an abstract
  `Engine` structure whose primitives (`execute`, `executescript`,
  `iterdump`, and in-memory connection creation) act on an abstract database
  state.  Open connections live in a `Store` (list of database states)
  addressed by `Ref`, so that mutation through one connection handle is
  observable from the store, as in the real program.
* Python exceptions are modelled by `EngExc` (engine-raised) and `PyExc`
  (engine-raised or `VerifyQeuryException`); the broad `except Exception`
  in `_run` catches both and keeps `str(error)`.
-/

namespace SqlGrader

/-- Model of a SQLite value as it appears in a result row. -/
inductive SqlVal : Type where
  | null : SqlVal
  | int (n : Int) : SqlVal
  | text (s : String) : SqlVal
deriving DecidableEq

/-- Model of one result row: a tuple of SQLite values. -/
abbrev Row := List SqlVal

/-- Decimal digit characters of a natural number, most significant first;
`0` is rendered as `"0"`, matching Python's `repr`. -/
def natChars (n : Nat) : List Char :=
  if n = 0 then [Char.ofNat 48] else ((Nat.digits 10 n).map Nat.digitChar).reverse

/-- Decimal rendering of an integer, matching Python's `repr` of an `int`:
a leading minus sign for negative values, digits otherwise. -/
def intChars (n : Int) : List Char :=
  if n < 0 then Char.ofNat 45 :: natChars n.natAbs else natChars n.natAbs

/-- Escaping of one character inside Python's single-quoted string `repr`:
backslash and single quote are backslash-escaped, others are unchanged. -/
def escChar (c : Char) : List Char :=
  if c = Char.ofNat 92 then [Char.ofNat 92, Char.ofNat 92]
  else if c = Char.ofNat 39 then [Char.ofNat 92, Char.ofNat 39]
  else [c]

/-- Escaping of a character sequence inside Python's string `repr`. -/
def escChars : List Char → List Char
  | [] => []
  | c :: cs => escChar c ++ escChars cs

/-- Characters of Python's `repr` of one SQLite value: `None` for NULL,
decimal digits for an integer, a single-quoted escaped literal for text. -/
def encVal : SqlVal → List Char
  | .null => [Char.ofNat 78, Char.ofNat 111, Char.ofNat 110, Char.ofNat 101]
  | .int n => intChars n
  | .text s => Char.ofNat 39 :: (escChars s.data ++ [Char.ofNat 39])

/-- Characters of the remaining elements of a tuple `repr` with at least two
elements: elements are separated by a comma and a space, and the tuple is
closed with a right parenthesis. -/
def encTail : SqlVal → List SqlVal → List Char
  | v, [] => encVal v ++ [Char.ofNat 41]
  | v, w :: ws => encVal v ++ Char.ofNat 44 :: Char.ofNat 32 :: encTail w ws

/-- Characters of Python's `str` of a row tuple: `()` for the empty tuple,
`(x,)` for a singleton, `(a, b, ...)` otherwise. -/
def encRow : Row → List Char
  | [] => [Char.ofNat 40, Char.ofNat 41]
  | [v] => Char.ofNat 40 :: (encVal v ++ [Char.ofNat 44, Char.ofNat 41])
  | v :: w :: ws => Char.ofNat 40 :: (encVal v ++ Char.ofNat 44 :: Char.ofNat 32 :: encTail w ws)

/-- Model of Python's `str` applied to a row tuple: this is the sort key
used by `compare_rows` (`sorted(expected, key=str)`). -/
def pyStr (r : Row) : String := String.mk (encRow r)

/-- Predicate on a character stream: it does not begin with a decimal digit.
Inside a rendered tuple, the character following a value is a separator or a
closing parenthesis, so the digit run of an integer is delimited. -/
def notDigitHead : List Char → Prop
  | [] => True
  | c :: _ => c.isDigit = false

/-- Decoder for the escaped single-quoted literal body: consumes characters
up to the first unescaped closing quote and returns the decoded characters
together with the remaining stream.  It is a left inverse of `escChars`
followed by a closing quote, which makes that rendering a prefix code. -/
def unesc : List Char → Option (List Char × List Char)
  | [] => none
  | c :: cs =>
    if c = Char.ofNat 39 then some ([], cs)
    else if c = Char.ofNat 92 then
      match cs with
      | [] => none
      | e :: cs' =>
        match unesc cs' with
        | some r => some (e :: r.1, r.2)
        | none => none
    else
      match unesc cs with
      | some r => some (c :: r.1, r.2)
      | none => none

/-- Model of Python's `<` on strings: lexicographic order on code points. -/
def charListLt : List Char → List Char → Bool
  | _, [] => false
  | [], _ :: _ => true
  | c :: cs, d :: ds =>
    if c.toNat < d.toNat then true
    else if d.toNat < c.toNat then false
    else charListLt cs ds

/-- Python string comparison, applied to the `str` sort keys. -/
def pyStrLt (a b : String) : Bool := charListLt a.data b.data

/-- Key ordering used to model Python's stable `sorted(rows, key=str)`:
row `a` may come before row `b` iff `str(b) < str(a)` fails. -/
def rowLe (a b : Row) : Bool := !pyStrLt (pyStr b) (pyStr a)

/-- Model of `SqlProblem.compare_rows`: absent results count as empty lists;
differing row counts compare `False`; with `is_ordered = False` both sides
are independently (stably) sorted by the string key before the pairwise
equality check. -/
def compare_rows (expected actual : Option (List Row)) (is_ordered : Bool) : Bool :=
  let expected := expected.getD []
  let actual := actual.getD []
  if expected.length ≠ actual.length then false
  else
    let p :=
      if is_ordered then (expected, actual)
      else (expected.mergeSort rowLe, actual.mergeSort rowLe)
    (p.1.zip p.2).all fun q => decide (q.1 = q.2)

/-- Exceptions raised by the SQLite engine itself: `sqlite3.Warning` (its
message), or any other engine-level error (its message). -/
inductive EngExc : Type where
  | warning (msg : String)
  | error (msg : String)
deriving DecidableEq

/-- Exceptions that can reach the broad `except Exception` in `_run`:
an engine exception that was re-raised, or `VerifyQeuryException` (note the
source's spelling) raised for a multi-statement verification query. -/
inductive PyExc : Type where
  | eng (e : EngExc)
  | verifyQuery
deriving DecidableEq

/-- Message of `VerifyQeuryException` (`default_msg` in the source, with its
typo preserved). -/
def VerifyQeuryException.default_msg : String :=
  "Verification query should not contain multiple statemtents. Check problem configuration."

/-- Model of Python's `str(error)` on a caught exception: engine exceptions
carry their message, `VerifyQeuryException` stringifies to `default_msg`. -/
def pyExcStr : PyExc → String
  | .eng (.warning m) => m
  | .eng (.error m) => m
  | .verifyQuery => VerifyQeuryException.default_msg

/-- Prefix tested by `_run` to recognise sqlite's multi-statement warning
(`str(warning).startswith('You can only execute one')`). -/
def only_one_statement_msg : String := "You can only execute one"

/-- Model of Python's `str.startswith`. -/
def py_startswith (s pre : String) : Bool := List.isPrefixOf pre.data s.data

/-- Model of Python's truthiness test on an optional query string:
`None` and the empty string are falsy (`if verify_query:`). -/
def py_truthy : Option String → Bool
  | none => false
  | some s => decide (s ≠ "")

/-- Abstract SQLite engine over a database-state type `σ`.  `execute` runs a
single statement, `executescript` a script; both return either rows or an
engine exception, together with the post-state of the database they ran on.
`emptyDb` is the state of a fresh `sqlite3.connect(':memory:')` database and
`iterdump` is the (read-only) SQL dump of a database, statement by statement. -/
structure Engine (σ : Type) where
  execute : σ → String → Except EngExc (List Row) × σ
  executescript : σ → String → Except EngExc (List Row) × σ
  emptyDb : σ
  iterdump : σ → List String

/-- Open connections: a store of database states addressed by `Ref`. -/
abbrev Store (σ : Type) := List σ

/-- Handle of one open connection. -/
abbrev Ref := Nat

/-- State of the database behind connection `r`. -/
def getDb {σ : Type} (E : Engine σ) (st : Store σ) (r : Ref) : σ :=
  st.getD r E.emptyDb

/-- Model of `sqlite3.connect(':memory:')`: allocate a fresh empty database
and return its connection handle. -/
def connect_memory {σ : Type} (E : Engine σ) (st : Store σ) : Ref × Store σ :=
  (st.length, st ++ [E.emptyDb])

/-- Run `connection.execute(query)` on connection `r`, materialising the
returned rows (mutating only the database behind `r`). -/
def conn_execute {σ : Type} (E : Engine σ) (st : Store σ) (r : Ref) (q : String) :
    Except EngExc (List Row) × Store σ :=
  let res := E.execute (getDb E st r) q
  (res.1, st.set r res.2)

/-- Run `connection.executescript(query)` on connection `r`. -/
def conn_executescript {σ : Type} (E : Engine σ) (st : Store σ) (r : Ref) (q : String) :
    Except EngExc (List Row) × Store σ :=
  let res := E.executescript (getDb E st r) q
  (res.1, st.set r res.2)

/-- Read-only dump of the database behind connection `r`
(`source.iterdump()`). -/
def conn_iterdump {σ : Type} (E : Engine σ) (st : Store σ) (r : Ref) : List String :=
  E.iterdump (getDb E st r)

/-- Model of the inner `execute_query` of `SqlProblem._run`: try
`connection.execute`; if it raises a `sqlite3.Warning` whose message starts
with the multi-statement prefix, raise `VerifyQeuryException` for a
verification query, otherwise fall back to `connection.executescript`; any
other exception propagates. -/
def execute_query {σ : Type} (E : Engine σ) (st : Store σ) (r : Ref) (q : String)
    (is_verify_query : Bool) : Except PyExc (List Row) × Store σ :=
  match conn_execute E st r q with
  | (.ok rows, st') => (.ok rows, st')
  | (.error (.warning m), st') =>
    if py_startswith m only_one_statement_msg then
      if is_verify_query then (.error .verifyQuery, st')
      else
        match conn_executescript E st' r q with
        | (.ok rows, st'') => (.ok rows, st'')
        | (.error e, st'') => (.error (.eng e), st'')
    else (.error (.eng (.warning m)), st')
  | (.error (.error m), st') => (.error (.eng (.error m)), st')

/-- Model of `SqlProblem`: the problem definition together with the cached
answer result computed at construction. -/
structure SqlProblem where
  database : Ref
  answer_query : String
  verify_query : Option String
  modification_query : Option String
  is_ordered : Bool
  answer_result : Option (List Row)
deriving DecidableEq

/-- Model of `SqlProblem._run`: execute a single query on the database,
materialise its rows, and catch every exception into a string message
(result `none`, message `some`). -/
def SqlProblem._run {σ : Type} (E : Engine σ) (st : Store σ) (r : Ref) (q : String)
    (is_verify_query : Bool) : (Option (List Row) × Option String) × Store σ :=
  match execute_query E st r q is_verify_query with
  | (.ok rows, st') => ((some rows, none), st')
  | (.error e, st') => ((none, some (pyExcStr e)), st')

/-- Model of `SqlProblem.clone_database`: open a fresh in-memory database and
replay the dump of `source` into it.  A failure of the replay script
propagates uncaught (the store at the failure point is still returned as the
second component). -/
def SqlProblem.clone_database {σ : Type} (E : Engine σ) (st : Store σ) (source : Ref) :
    Except EngExc Ref × Store σ :=
  let alloc := connect_memory E st
  let destination := alloc.1
  let query := String.join (conn_iterdump E alloc.2 source)
  match conn_executescript E alloc.2 destination query with
  | (.ok _, st₂) => (.ok destination, st₂)
  | (.error e, st₂) => (.error e, st₂)

/-- Model of `SqlProblem.get_query_result`: clone the source database, run the
query; if a verification query is configured, optionally run the modification
query (its result and error are discarded) and finally run the verification
query (single-statement only); the overall result and error are those of the
last run performed.  Only a clone failure escapes as an exception. -/
def SqlProblem.get_query_result {σ : Type} (E : Engine σ) (st : Store σ) (source : Ref)
    (query : String) (verify_query modification_query : Option String) :
    Except EngExc (Option (List Row) × Option String) × Store σ :=
  match SqlProblem.clone_database E st source with
  | (.error e, st₁) => (.error e, st₁)
  | (.ok database, st₁) =>
    let first := SqlProblem._run E st₁ database query false
    if py_truthy verify_query then
      let st₂ :=
        if py_truthy modification_query then
          (SqlProblem._run E first.2 database (modification_query.getD "") false).2
        else first.2
      let verif := SqlProblem._run E st₂ database (verify_query.getD "") true
      (.ok verif.1, verif.2)
    else (.ok first.1, first.2)

/-- Model of `SqlProblem.__init__` for a problem built on an already-open
reference database (dataset resolution from bundled resource files is
external to the grading core): the answer chain is executed once and its
result cached; the error component returned by the chain is discarded
(`self.answer_result, _ = ...`). -/
def SqlProblem.init {σ : Type} (E : Engine σ) (st : Store σ) (database : Ref)
    (answer_query : String) (verify_query modification_query : Option String)
    (is_ordered : Bool) : Except EngExc SqlProblem × Store σ :=
  match SqlProblem.get_query_result E st database answer_query verify_query modification_query with
  | (.error e, st') => (.error e, st')
  | (.ok res, st') =>
    (.ok { database := database, answer_query := answer_query,
           verify_query := verify_query, modification_query := modification_query,
           is_ordered := is_ordered, answer_result := res.1 }, st')

/-- Model of `SqlProblem.attempt`: run the submission through the query chain
and compare against the cached answer result, returning the 4-tuple
`(submission_result, answer_result, error, comparison)`. -/
def SqlProblem.attempt {σ : Type} (E : Engine σ) (st : Store σ) (self : SqlProblem)
    (query : String) :
    Except EngExc (Option (List Row) × Option (List Row) × Option String × Bool) × Store σ :=
  match SqlProblem.get_query_result E st self.database query
      self.verify_query self.modification_query with
  | (.error e, st') => (.error e, st')
  | (.ok res, st') =>
    let comparison := compare_rows self.answer_result res.1 self.is_ordered
    (.ok (res.1, self.answer_result, res.2, comparison), st')

/-- Sequence of submission attempts against one problem, threading the store:
models repeated calls of `attempt` on the same `SqlProblem`. -/
def SqlProblem.attempt_many {σ : Type} (E : Engine σ) (st : Store σ) (self : SqlProblem)
    (queries : List String) : Store σ :=
  queries.foldl (fun acc q => (SqlProblem.attempt E acc self q).2) st

/-!
Concrete engine behaviours used to evaluate the model on explicit inputs.
Each one fixes the abstract SQLite engine to a small deterministic behaviour
(dispatching on the query text) so that whole evaluations reduce by `rfl`.
-/

/-- Engine behaviour: the query `"ANS"` succeeds with zero rows, every other
`execute` fails with a generic engine error; scripts succeed with no rows. -/
def EngA : Engine Unit where
  execute := fun _ q =>
    if q = "ANS" then (.ok [], ()) else (.error (.error "near Not: syntax error"), ())
  executescript := fun _ _ => (.ok [], ())
  emptyDb := ()
  iterdump := fun _ => []

/-- Problem produced by constructing against `EngA` with answer query `"ANS"`,
no verification or modification query, ordered comparison: the answer result
is the (successful) empty row set. -/
def pA : SqlProblem :=
  { database := 0, answer_query := "ANS", verify_query := none,
    modification_query := none, is_ordered := true, answer_result := some [] }

/-- Engine behaviour: every `execute` fails with a generic engine error
(a broken answer query at construction time); scripts succeed. -/
def EngB : Engine Unit where
  execute := fun _ _ => (.error (.error "no such table: Movie"), ())
  executescript := fun _ _ => (.ok [], ())
  emptyDb := ()
  iterdump := fun _ => []

/-- Problem produced by constructing against `EngB`: the answer chain failed,
so the cached answer result is absent. -/
def pB : SqlProblem :=
  { database := 0, answer_query := "SELECT * FROM Movie", verify_query := none,
    modification_query := none, is_ordered := true, answer_result := none }

/-- Engine behaviour: the submission `"SUB"` fails with an engine error, the
verification query `"VER"` succeeds with one row, everything else succeeds
with zero rows. -/
def EngC : Engine Unit where
  execute := fun _ q =>
    if q = "SUB" then (.error (.error "synerr"), ())
    else if q = "VER" then (.ok [[SqlVal.int 1]], ())
    else (.ok [], ())
  executescript := fun _ _ => (.ok [], ())
  emptyDb := ()
  iterdump := fun _ => []

/-- Problem produced by constructing against `EngC` with answer query `"ANS"`
and verification query `"VER"`: the cached answer result is the verification
query's row. -/
def pC : SqlProblem :=
  { database := 0, answer_query := "ANS", verify_query := some "VER",
    modification_query := none, is_ordered := true,
    answer_result := some [[SqlVal.int 1]] }

/-- Engine behaviour: every `execute` raises the sqlite multi-statement
warning (as for any multi-statement text), and `executescript` would succeed
with a row, so running it would be observable. -/
def EngD : Engine Unit where
  execute := fun _ _ =>
    (.error (.warning "You can only execute one statement at a time."), ())
  executescript := fun _ _ => (.ok [[SqlVal.int 7]], ())
  emptyDb := ()
  iterdump := fun _ => []

/-- Two distinct concrete rows. -/
def row0 : Row := [SqlVal.int 0]

/-- Second of the two distinct concrete rows. -/
def row1 : Row := [SqlVal.int 1]

/-- Palindromic row sequence with (at least) two distinct rows. -/
def Xpal : List Row := [row0, row1, row0]

/-!
Order-theoretic facts about the modelled Python string comparison.
-/

theorem charToNat_inj {a b : Char} (h : a.toNat = b.toNat) : a = b := by
  apply Char.ext
  apply UInt32.ext
  simpa [Char.toNat] using h

theorem charListLt_irrefl : ∀ a : List Char, charListLt a a = false := by
  intro a
  induction a with
  | nil => rfl
  | cons c cs ih => simp [charListLt, ih]

theorem charListLt_trans :
    ∀ a b c : List Char, charListLt a b = true → charListLt b c = true →
      charListLt a c = true := by
  intro a
  induction a with
  | nil =>
    intro b c h₁ h₂
    cases b with
    | nil => simp [charListLt] at h₁
    | cons y ys =>
      cases c with
      | nil => simp [charListLt] at h₂
      | cons z zs => simp [charListLt]
  | cons x xs ih =>
    intro b c h₁ h₂
    cases b with
    | nil => simp [charListLt] at h₁
    | cons y ys =>
      cases c with
      | nil => simp [charListLt] at h₂
      | cons z zs =>
        simp only [charListLt] at h₁ h₂ ⊢
        split_ifs at h₁ h₂ ⊢
        all_goals try rfl
        all_goals try omega
        all_goals exact ih ys zs h₁ h₂

theorem charListLt_asymm {a b : List Char} (h : charListLt a b = true) :
    charListLt b a = false := by
  by_contra hba
  have hba' : charListLt b a = true := by
    cases hb : charListLt b a with
    | false => exact absurd hb hba
    | true => rfl
  have : charListLt a a = true := charListLt_trans a b a h hba'
  rw [charListLt_irrefl] at this
  exact Bool.false_ne_true this

theorem charListLt_connex :
    ∀ a b : List Char, charListLt a b = false → charListLt b a = false → a = b := by
  intro a
  induction a with
  | nil =>
    intro b h₁ _
    cases b with
    | nil => rfl
    | cons y ys => simp [charListLt] at h₁
  | cons x xs ih =>
    intro b h₁ h₂
    cases b with
    | nil => simp [charListLt] at h₂
    | cons y ys =>
      simp only [charListLt] at h₁ h₂
      split_ifs at h₁ h₂
      have hxy : x = y := charToNat_inj (by omega)
      rw [hxy, ih ys h₁ h₂]

/-!
Injectivity of the modelled Python `str` on rows.  The `repr` of a value is a
prefix code within a rendered tuple: `None` has fixed length, a digit run is
delimited by the following separator, and a quoted text literal is delimited
by its closing quote (never produced unescaped inside).
-/

theorem digitChar_toNat_lt_ten : ∀ {d : Nat}, d < 10 → (Nat.digitChar d).toNat = 48 + d := by
  intro d hd
  interval_cases d <;> rfl

theorem digitChar_inj_lt_ten {d₁ d₂ : Nat} (h₁ : d₁ < 10) (h₂ : d₂ < 10)
    (h : Nat.digitChar d₁ = Nat.digitChar d₂) : d₁ = d₂ := by
  have := congrArg Char.toNat h
  rw [digitChar_toNat_lt_ten h₁, digitChar_toNat_lt_ten h₂] at this
  omega

theorem digitChar_isDigit {d : Nat} (h : d < 10) : (Nat.digitChar d).isDigit = true := by
  interval_cases d <;> decide

theorem map_digitChar_cancel :
    ∀ (l₁ l₂ : List Nat), (∀ d ∈ l₁, d < 10) → (∀ d ∈ l₂, d < 10) →
      l₁.map Nat.digitChar = l₂.map Nat.digitChar → l₁ = l₂ := by
  intro l₁
  induction l₁ with
  | nil =>
    intro l₂ _ _ h
    cases l₂ with
    | nil => rfl
    | cons d l => simp at h
  | cons d l ih =>
    intro l₂ h₁ h₂ h
    cases l₂ with
    | nil => simp at h
    | cons e l' =>
      simp only [List.map_cons, List.cons.injEq] at h
      have hd : d = e :=
        digitChar_inj_lt_ten (h₁ d (by simp)) (h₂ e (by simp)) h.1
      rw [hd, ih l' (fun x hx => h₁ x (by simp [hx])) (fun x hx => h₂ x (by simp [hx])) h.2]

theorem digits_lt_ten (n : Nat) : ∀ d ∈ Nat.digits 10 n, d < 10 :=
  fun _ hd => Nat.digits_lt_base (by norm_num) hd

theorem natChars_zero_ne {n : Nat} (hn : n ≠ 0) :
    ((Nat.digits 10 n).map Nat.digitChar).reverse ≠ [Char.ofNat 48] := by
  intro h
  have hlen := congrArg List.length h
  simp only [List.length_reverse, List.length_map, List.length_cons, List.length_nil] at hlen
  obtain ⟨d, hd⟩ := List.length_eq_one.mp hlen
  rw [hd] at h
  simp only [List.map_cons, List.map_nil, List.reverse_cons, List.reverse_nil,
    List.nil_append, List.cons.injEq, and_true] at h
  have hdlt : d < 10 := digits_lt_ten n d (by rw [hd]; simp)
  have htn := congrArg Char.toNat h
  rw [digitChar_toNat_lt_ten hdlt] at htn
  have h48 : (Char.ofNat 48).toNat = 48 := by decide
  rw [h48] at htn
  have hd0 : d = 0 := by omega
  have hof := Nat.ofDigits_digits 10 n
  rw [hd, hd0] at hof
  simp [Nat.ofDigits] at hof
  exact hn hof.symm

theorem natChars_inj : ∀ {m n : Nat}, natChars m = natChars n → m = n := by
  intro m n h
  unfold natChars at h
  split_ifs at h with hm hn hn
  · omega
  · exact absurd h.symm (natChars_zero_ne hn)
  · exact absurd h (natChars_zero_ne hm)
  · have h' := congrArg List.reverse h
    simp only [List.reverse_reverse] at h'
    have hdig : Nat.digits 10 m = Nat.digits 10 n :=
      map_digitChar_cancel _ _ (digits_lt_ten m) (digits_lt_ten n) h'
    have hm' := Nat.ofDigits_digits 10 m
    have hn' := Nat.ofDigits_digits 10 n
    rw [hdig] at hm'
    omega

theorem natChars_all_digits (n : Nat) : ∀ c ∈ natChars n, c.isDigit = true := by
  intro c hc
  unfold natChars at hc
  split_ifs at hc with hn
  · simp only [List.mem_singleton] at hc
    rw [hc]
    decide
  · rw [List.mem_reverse, List.mem_map] at hc
    obtain ⟨d, hd, rfl⟩ := hc
    exact digitChar_isDigit (digits_lt_ten n d hd)

theorem natChars_head (n : Nat) :
    ∃ c cs, natChars n = c :: cs ∧ c.isDigit = true := by
  rcases hn : natChars n with _ | ⟨c, cs⟩
  · exfalso
    unfold natChars at hn
    split_ifs at hn with h
    rw [List.reverse_eq_nil_iff, List.map_eq_nil_iff] at hn
    exact h (Nat.digits_eq_nil_iff_eq_zero.mp hn)
  · exact ⟨c, cs, rfl, natChars_all_digits n c (by rw [hn]; simp)⟩

theorem intChars_head (n : Int) :
    ∃ c cs, intChars n = c :: cs ∧ (c = Char.ofNat 45 ∨ c.isDigit = true) := by
  unfold intChars
  split_ifs with h
  · exact ⟨Char.ofNat 45, natChars n.natAbs, rfl, Or.inl rfl⟩
  · obtain ⟨c, cs, hc, hdig⟩ := natChars_head n.natAbs
    exact ⟨c, cs, hc, Or.inr hdig⟩

theorem notDigitHead_cons {c : Char} {l : List Char} :
    notDigitHead (c :: l) ↔ c.isDigit = false := Iff.rfl

theorem digits_append_cancel :
    ∀ (a b s t : List Char), (∀ c ∈ a, c.isDigit = true) → (∀ c ∈ b, c.isDigit = true) →
      notDigitHead s → notDigitHead t → a ++ s = b ++ t → a = b ∧ s = t := by
  intro a
  induction a with
  | nil =>
    intro b s t _ hb hs _ h
    cases b with
    | nil => exact ⟨rfl, by simpa using h⟩
    | cons d b' =>
      exfalso
      simp only [List.nil_append] at h
      rw [h, List.cons_append, notDigitHead_cons] at hs
      rw [hb d (by simp)] at hs
      exact Bool.false_ne_true hs.symm
  | cons c a' ih =>
    intro b s t ha hb hs ht h
    cases b with
    | nil =>
      exfalso
      simp only [List.nil_append] at h
      rw [← h, List.cons_append, notDigitHead_cons] at ht
      rw [ha c (by simp)] at ht
      exact Bool.false_ne_true ht.symm
    | cons d b' =>
      simp only [List.cons_append, List.cons.injEq] at h
      obtain ⟨he, hr⟩ :=
        ih b' s t (fun x hx => ha x (by simp [hx])) (fun x hx => hb x (by simp [hx])) hs ht h.2
      exact ⟨by rw [h.1, he], hr⟩

theorem intChars_cancel :
    ∀ (m n : Int) (s t : List Char), notDigitHead s → notDigitHead t →
      intChars m ++ s = intChars n ++ t → m = n ∧ s = t := by
  intro m n s t hs ht h
  unfold intChars at h
  split_ifs at h with hm hn hn
  · simp only [List.cons_append, List.cons.injEq] at h
    obtain ⟨ha, hst⟩ := digits_append_cancel _ _ _ _
      (natChars_all_digits m.natAbs) (natChars_all_digits n.natAbs) hs ht h.2
    have := natChars_inj ha
    exact ⟨by omega, hst⟩
  · exfalso
    obtain ⟨c, cs, hc, hdig⟩ := natChars_head n.natAbs
    rw [hc] at h
    simp only [List.cons_append, List.cons.injEq] at h
    rw [← h.1] at hdig
    exact Bool.false_ne_true ((by decide : (Char.ofNat 45).isDigit = false).symm.trans hdig)
  · exfalso
    obtain ⟨c, cs, hc, hdig⟩ := natChars_head m.natAbs
    rw [hc] at h
    simp only [List.cons_append, List.cons.injEq] at h
    rw [h.1] at hdig
    exact Bool.false_ne_true ((by decide : (Char.ofNat 45).isDigit = false).symm.trans hdig)
  · obtain ⟨ha, hst⟩ := digits_append_cancel _ _ _ _
      (natChars_all_digits m.natAbs) (natChars_all_digits n.natAbs) hs ht h
    have := natChars_inj ha
    exact ⟨by omega, hst⟩

theorem unesc_cons (c : Char) (cs : List Char) :
    unesc (c :: cs) =
      if c = Char.ofNat 39 then some ([], cs)
      else if c = Char.ofNat 92 then
        match cs with
        | [] => none
        | e :: cs' =>
          match unesc cs' with
          | some r => some (e :: r.1, r.2)
          | none => none
      else
        match unesc cs with
        | some r => some (c :: r.1, r.2)
        | none => none := by
  rw [unesc.eq_def]

theorem unesc_quote (s : List Char) :
    unesc (Char.ofNat 39 :: s) = some ([], s) := by
  rw [unesc_cons, if_pos rfl]

theorem unesc_esc_pair (e : Char) (cs : List Char) :
    unesc (Char.ofNat 92 :: e :: cs) =
      match unesc cs with
      | some r => some (e :: r.1, r.2)
      | none => none := by
  rw [unesc_cons, if_neg (by decide), if_pos rfl]

theorem unesc_plain {c : Char} (h₁ : ¬c = Char.ofNat 39) (h₂ : ¬c = Char.ofNat 92)
    (cs : List Char) :
    unesc (c :: cs) =
      match unesc cs with
      | some r => some (c :: r.1, r.2)
      | none => none := by
  rw [unesc_cons, if_neg h₁, if_neg h₂]

theorem unesc_escChars :
    ∀ (a s : List Char), unesc (escChars a ++ Char.ofNat 39 :: s) = some (a, s) := by
  intro a
  induction a with
  | nil => intro s; exact unesc_quote s
  | cons c a' ih =>
    intro s
    by_cases h₁ : c = Char.ofNat 92
    · subst h₁
      have e₁ : escChars (Char.ofNat 92 :: a') ++ Char.ofNat 39 :: s
          = Char.ofNat 92 :: Char.ofNat 92 :: (escChars a' ++ Char.ofNat 39 :: s) := rfl
      rw [e₁, unesc_esc_pair, ih s]
    · by_cases h₂ : c = Char.ofNat 39
      · subst h₂
        have e₁ : escChars (Char.ofNat 39 :: a') ++ Char.ofNat 39 :: s
            = Char.ofNat 92 :: Char.ofNat 39 :: (escChars a' ++ Char.ofNat 39 :: s) := rfl
        rw [e₁, unesc_esc_pair, ih s]
      · have e₁ : escChars (c :: a') ++ Char.ofNat 39 :: s
            = c :: (escChars a' ++ Char.ofNat 39 :: s) := by
          simp only [escChars, escChar, if_neg h₁, if_neg h₂, List.cons_append,
            List.nil_append]
        rw [e₁, unesc_plain h₂ h₁, ih s]

theorem esc_cancel {a b s t : List Char}
    (h : escChars a ++ Char.ofNat 39 :: s = escChars b ++ Char.ofNat 39 :: t) :
    a = b ∧ s = t := by
  have ha := unesc_escChars a s
  have hb := unesc_escChars b t
  rw [h, hb] at ha
  simpa using ha.symm

theorem encVal_cancel :
    ∀ (v w : SqlVal) (s t : List Char), notDigitHead s → notDigitHead t →
      encVal v ++ s = encVal w ++ t → v = w ∧ s = t := by
  intro v w s t hs ht h
  cases v with
  | null =>
    cases w with
    | null =>
      simp only [encVal, List.cons_append, List.nil_append, List.cons.injEq,
        true_and] at h
      exact ⟨rfl, h⟩
    | int n =>
      exfalso
      obtain ⟨c, cs, hc, hcc⟩ := intChars_head n
      simp only [encVal, hc, List.cons_append, List.cons.injEq] at h
      rcases hcc with h45 | hdig
      · rw [h45] at h
        exact (by decide : ¬(Char.ofNat 78 = Char.ofNat 45)) h.1
      · rw [← h.1] at hdig
        exact (by decide : ¬((Char.ofNat 78).isDigit = true)) hdig
    | text u =>
      exfalso
      simp only [encVal, List.cons_append, List.cons.injEq] at h
      exact (by decide : ¬(Char.ofNat 78 = Char.ofNat 39)) h.1
  | int m =>
    cases w with
    | null =>
      exfalso
      obtain ⟨c, cs, hc, hcc⟩ := intChars_head m
      simp only [encVal, hc, List.cons_append, List.cons.injEq] at h
      rcases hcc with h45 | hdig
      · rw [h45] at h
        exact (by decide : ¬(Char.ofNat 45 = Char.ofNat 78)) h.1
      · rw [h.1] at hdig
        exact (by decide : ¬((Char.ofNat 78).isDigit = true)) hdig
    | int n =>
      simp only [encVal] at h
      obtain ⟨hmn, hst⟩ := intChars_cancel m n s t hs ht h
      exact ⟨by rw [hmn], hst⟩
    | text u =>
      exfalso
      obtain ⟨c, cs, hc, hcc⟩ := intChars_head m
      simp only [encVal, hc, List.cons_append, List.cons.injEq] at h
      rcases hcc with h45 | hdig
      · rw [h45] at h
        exact (by decide : ¬(Char.ofNat 45 = Char.ofNat 39)) h.1
      · rw [h.1] at hdig
        exact (by decide : ¬((Char.ofNat 39).isDigit = true)) hdig
  | text u =>
    cases w with
    | null =>
      exfalso
      simp only [encVal, List.cons_append, List.cons.injEq] at h
      exact (by decide : ¬(Char.ofNat 39 = Char.ofNat 78)) h.1
    | int n =>
      exfalso
      obtain ⟨c, cs, hc, hcc⟩ := intChars_head n
      simp only [encVal, hc, List.cons_append, List.cons.injEq] at h
      rcases hcc with h45 | hdig
      · rw [h45] at h
        exact (by decide : ¬(Char.ofNat 39 = Char.ofNat 45)) h.1
      · rw [← h.1] at hdig
        exact (by decide : ¬((Char.ofNat 39).isDigit = true)) hdig
    | text u' =>
      simp only [encVal, List.cons_append, List.cons.injEq, true_and,
        List.append_assoc, List.singleton_append] at h
      obtain ⟨hd, hst⟩ := esc_cancel h
      refine ⟨?_, hst⟩
      rw [String.ext hd]

theorem notDigitHead_of_head {c : Char} {l : List Char} (h : c.isDigit = false) :
    notDigitHead (c :: l) := h

theorem encTail_cancel :
    ∀ (vs : List SqlVal) (v w : SqlVal) (ws : List SqlVal),
      encTail v vs = encTail w ws → v = w ∧ vs = ws := by
  intro vs
  induction vs with
  | nil =>
    intro v w ws h
    cases ws with
    | nil =>
      simp only [encTail] at h
      obtain ⟨hvw, -⟩ := encVal_cancel v w _ _
        (notDigitHead_of_head (by decide)) (notDigitHead_of_head (by decide)) h
      exact ⟨hvw, rfl⟩
    | cons w' ws' =>
      exfalso
      simp only [encTail] at h
      obtain ⟨-, hst⟩ := encVal_cancel v w _ _
        (notDigitHead_of_head (by decide)) (notDigitHead_of_head (by decide)) h
      simp at hst
  | cons v' vs' ih =>
    intro v w ws h
    cases ws with
    | nil =>
      exfalso
      simp only [encTail] at h
      obtain ⟨-, hst⟩ := encVal_cancel v w _ _
        (notDigitHead_of_head (by decide)) (notDigitHead_of_head (by decide)) h
      simp at hst
    | cons w' ws' =>
      simp only [encTail] at h
      obtain ⟨hvw, hst⟩ := encVal_cancel v w _ _
        (notDigitHead_of_head (by decide)) (notDigitHead_of_head (by decide)) h
      simp only [List.cons.injEq, true_and] at hst
      obtain ⟨hv', hws'⟩ := ih v' w' ws' hst
      exact ⟨hvw, by rw [hv', hws']⟩

theorem encVal_head_ne_rparen (v : SqlVal) :
    ∃ c cs, encVal v = c :: cs ∧ ¬(c = Char.ofNat 41) ∧ ¬(c = Char.ofNat 44) := by
  cases v with
  | null => exact ⟨Char.ofNat 78, _, rfl, by decide, by decide⟩
  | int n =>
    obtain ⟨c, cs, hc, hcc⟩ := intChars_head n
    refine ⟨c, cs, hc, ?_, ?_⟩
    · rcases hcc with h45 | hdig
      · rw [h45]; decide
      · intro hc41
        rw [hc41] at hdig
        exact (by decide : ¬((Char.ofNat 41).isDigit = true)) hdig
    · rcases hcc with h45 | hdig
      · rw [h45]; decide
      · intro hc44
        rw [hc44] at hdig
        exact (by decide : ¬((Char.ofNat 44).isDigit = true)) hdig
  | text u => exact ⟨Char.ofNat 39, _, rfl, by decide, by decide⟩

theorem encRow_inj : ∀ (r₁ r₂ : Row), encRow r₁ = encRow r₂ → r₁ = r₂ := by
  intro r₁ r₂ h
  rcases r₁ with _ | ⟨v, _ | ⟨v', vs⟩⟩ <;> rcases r₂ with _ | ⟨w, _ | ⟨w', ws⟩⟩
  · rfl
  · exfalso
    obtain ⟨c, cs, hc, hc41, -⟩ := encVal_head_ne_rparen w
    simp only [encRow, hc, List.cons_append, List.cons.injEq] at h
    exact hc41 h.2.1.symm
  · exfalso
    obtain ⟨c, cs, hc, hc41, -⟩ := encVal_head_ne_rparen w
    simp only [encRow, hc, List.cons_append, List.cons.injEq] at h
    exact hc41 h.2.1.symm
  · exfalso
    obtain ⟨c, cs, hc, hc41, -⟩ := encVal_head_ne_rparen v
    simp only [encRow, hc, List.cons_append, List.cons.injEq] at h
    exact hc41 h.2.1
  · simp only [encRow, List.cons.injEq, true_and] at h
    obtain ⟨hvw, -⟩ := encVal_cancel v w _ _
      (notDigitHead_of_head (by decide)) (notDigitHead_of_head (by decide)) h
    rw [hvw]
  · exfalso
    simp only [encRow, List.cons.injEq, true_and] at h
    obtain ⟨-, hst⟩ := encVal_cancel v w _ _
      (notDigitHead_of_head (by decide)) (notDigitHead_of_head (by decide)) h
    simp only [List.cons.injEq] at hst
    exact (by decide : ¬(Char.ofNat 41 = Char.ofNat 32)) hst.2.1
  · exfalso
    obtain ⟨c, cs, hc, hc41, -⟩ := encVal_head_ne_rparen v
    simp only [encRow, hc, List.cons_append, List.cons.injEq] at h
    exact hc41 h.2.1
  · exfalso
    simp only [encRow, List.cons.injEq, true_and] at h
    obtain ⟨-, hst⟩ := encVal_cancel v w _ _
      (notDigitHead_of_head (by decide)) (notDigitHead_of_head (by decide)) h
    simp only [List.cons.injEq] at hst
    exact (by decide : ¬(Char.ofNat 32 = Char.ofNat 41)) hst.2.1
  · simp only [encRow, List.cons.injEq, true_and] at h
    obtain ⟨hvw, hst⟩ := encVal_cancel v w _ _
      (notDigitHead_of_head (by decide)) (notDigitHead_of_head (by decide)) h
    simp only [List.cons.injEq, true_and] at hst
    obtain ⟨hv', hvs⟩ := encTail_cancel vs v' w' ws hst
    rw [hvw, hv', hvs]

theorem pyStr_inj {r₁ r₂ : Row} (h : pyStr r₁ = pyStr r₂) : r₁ = r₂ :=
  encRow_inj r₁ r₂ (congrArg String.data h)

/-!
The key ordering `rowLe` is a total preorder whose equivalence classes are
singletons (by injectivity of the string key), so the stable sort of a list
and of any permutation of it coincide.
-/

theorem rowLe_total (a b : Row) : (rowLe a b || rowLe b a) = true := by
  unfold rowLe pyStrLt
  cases hab : charListLt (pyStr b).data (pyStr a).data with
  | false => simp
  | true => simp [charListLt_asymm hab]

theorem rowLe_trans (a b c : Row) :
    rowLe a b = true → rowLe b c = true → rowLe a c = true := by
  unfold rowLe pyStrLt
  intro h₁ h₂
  rw [Bool.not_eq_true'] at h₁ h₂ ⊢
  by_contra hCA
  have hCA' : charListLt (pyStr c).data (pyStr a).data = true := by
    cases hq : charListLt (pyStr c).data (pyStr a).data with
    | false => exact absurd hq hCA
    | true => rfl
  cases hBC : charListLt (pyStr b).data (pyStr c).data with
  | true =>
    have := charListLt_trans _ _ _ hBC hCA'
    rw [this] at h₁
    exact Bool.false_ne_true h₁.symm
  | false =>
    have hbc := charListLt_connex _ _ hBC h₂
    rw [← hbc] at hCA'
    rw [hCA'] at h₁
    exact Bool.false_ne_true h₁.symm

theorem rowLe_antisymm (a b : Row) :
    rowLe a b = true → rowLe b a = true → a = b := by
  unfold rowLe pyStrLt
  intro h₁ h₂
  rw [Bool.not_eq_true'] at h₁ h₂
  have := charListLt_connex _ _ h₂ h₁
  exact pyStr_inj (String.ext this)

theorem mergeSort_rowLe_eq_of_perm {l₁ l₂ : List Row} (h : l₁.Perm l₂) :
    l₁.mergeSort rowLe = l₂.mergeSort rowLe := by
  haveI : IsAntisymm Row (fun a b => rowLe a b = true) := ⟨rowLe_antisymm⟩
  apply List.eq_of_perm_of_sorted (r := fun a b : Row => rowLe a b = true)
  · exact (List.mergeSort_perm l₁ rowLe).trans (h.trans (List.mergeSort_perm l₂ rowLe).symm)
  · exact List.sorted_mergeSort rowLe_trans rowLe_total l₁
  · exact List.sorted_mergeSort rowLe_trans rowLe_total l₂

theorem zip_all_eq_iff :
    ∀ (l₁ l₂ : List Row), l₁.length = l₂.length →
      (((l₁.zip l₂).all fun q => decide (q.1 = q.2)) = true ↔ l₁ = l₂) := by
  intro l₁
  induction l₁ with
  | nil =>
    intro l₂ h
    cases l₂ with
    | nil => simp
    | cons b m => simp at h
  | cons a l ih =>
    intro l₂ h
    cases l₂ with
    | nil => simp at h
    | cons b m =>
      simp only [List.length_cons, Nat.succ.injEq] at h
      simp only [List.zip_cons_cons, List.all_cons, Bool.and_eq_true, decide_eq_true_eq,
        List.cons.injEq]
      rw [ih m h]

theorem zip_all_self (l : List Row) :
    ((l.zip l).all fun q => decide (q.1 = q.2)) = true :=
  (zip_all_eq_iff l l rfl).mpr rfl

/-!
Facts about `compare_rows` proper.
-/

theorem compare_rows_of_length_ne (e a : Option (List Row)) (ord : Bool)
    (h : (e.getD []).length ≠ (a.getD []).length) : compare_rows e a ord = false := by
  simp only [compare_rows]
  rw [if_pos h]

theorem compare_rows_ordered_iff (X Y : List Row) (h : X.length = Y.length) :
    (compare_rows (some X) (some Y) true = true ↔ X = Y) := by
  simp only [compare_rows, Option.getD_some]
  rw [if_neg (fun hn => hn h)]
  simp only [if_true, ite_true]
  exact zip_all_eq_iff X Y h

theorem compare_rows_reverse_unordered_eq (X : List Row) :
    compare_rows (some X) (some X.reverse) false = true := by
  simp only [compare_rows, Option.getD_some]
  rw [if_neg (by simp)]
  simp only [Bool.false_eq_true, if_false, ite_false]
  rw [mergeSort_rowLe_eq_of_perm (List.reverse_perm X).symm]
  exact zip_all_self _

theorem compare_rows_none_actual (e : Option (List Row)) (ord : Bool) :
    compare_rows e none ord = decide (e.getD [] = []) := by
  simp only [compare_rows, Option.getD_none]
  cases hE : e.getD [] with
  | nil =>
    rw [if_neg (by simp)]
    cases ord <;> simp
  | cons r rs =>
    rw [if_pos (by simp)]
    simp

/-!
Structural facts about the executor chain: the shape of `_run` results, the
decomposition of `get_query_result` according to the configured queries, and
frame properties of the store (each evaluation writes only to the freshly
cloned connection).
-/

theorem run_shape {σ : Type} (E : Engine σ) (st : Store σ) (r : Ref) (q : String) (b : Bool) :
    (∃ rows, (SqlProblem._run E st r q b).1 = (some rows, none)) ∨
    (∃ m, (SqlProblem._run E st r q b).1 = (none, some m)) := by
  rcases hq : execute_query E st r q b with ⟨res, st'⟩
  cases res with
  | ok rows => exact Or.inl ⟨rows, by simp [SqlProblem._run, hq]⟩
  | error e => exact Or.inr ⟨pyExcStr e, by simp [SqlProblem._run, hq]⟩

theorem run_none_iff {σ : Type} (E : Engine σ) (st : Store σ) (r : Ref) (q : String) (b : Bool) :
    ((SqlProblem._run E st r q b).1.1 = none ↔ (SqlProblem._run E st r q b).1.2 ≠ none) := by
  rcases run_shape E st r q b with ⟨rows, hr⟩ | ⟨m, hr⟩ <;> rw [hr] <;> simp

theorem get_query_result_clone_error {σ : Type} (E : Engine σ) (st : Store σ) (source : Ref)
    (q : String) (vq mq : Option String) (e : EngExc) (st₁ : Store σ)
    (hc : SqlProblem.clone_database E st source = (.error e, st₁)) :
    SqlProblem.get_query_result E st source q vq mq = (.error e, st₁) := by
  simp [SqlProblem.get_query_result, hc]

theorem get_query_result_no_verify {σ : Type} (E : Engine σ) (st : Store σ) (source : Ref)
    (q : String) (vq mq : Option String) (database : Ref) (st₁ : Store σ)
    (hc : SqlProblem.clone_database E st source = (.ok database, st₁))
    (hv : py_truthy vq = false) :
    SqlProblem.get_query_result E st source q vq mq =
      (.ok (SqlProblem._run E st₁ database q false).1,
       (SqlProblem._run E st₁ database q false).2) := by
  simp [SqlProblem.get_query_result, hc, hv]

theorem get_query_result_verify {σ : Type} (E : Engine σ) (st : Store σ) (source : Ref)
    (q : String) (vq mq : Option String) (database : Ref) (st₁ : Store σ)
    (hc : SqlProblem.clone_database E st source = (.ok database, st₁))
    (hv : py_truthy vq = true) :
    SqlProblem.get_query_result E st source q vq mq =
      (let first := SqlProblem._run E st₁ database q false
       let st₂ :=
         if py_truthy mq then
           (SqlProblem._run E first.2 database (mq.getD "") false).2
         else first.2
       let verif := SqlProblem._run E st₂ database (vq.getD "") true
       (.ok verif.1, verif.2)) := by
  simp [SqlProblem.get_query_result, hc, hv]

theorem get_query_result_ok_shape {σ : Type} (E : Engine σ) (st : Store σ) (source : Ref)
    (q : String) (vq mq : Option String) (res : Option (List Row)) (err : Option String)
    (st' : Store σ)
    (h : SqlProblem.get_query_result E st source q vq mq = (.ok (res, err), st')) :
    (res = none ↔ err ≠ none) := by
  rcases hc : SqlProblem.clone_database E st source with ⟨cres, st₁⟩
  cases cres with
  | error e =>
    rw [get_query_result_clone_error E st source q vq mq e st₁ hc] at h
    simp at h
  | ok database =>
    cases hv : py_truthy vq with
    | false =>
      rw [get_query_result_no_verify E st source q vq mq database st₁ hc hv] at h
      have h₁ : (SqlProblem._run E st₁ database q false).1 = (res, err) := by
        have := congrArg Prod.fst h
        simpa using this
      have := run_none_iff E st₁ database q false
      rw [h₁] at this
      exact this
    | true =>
      rw [get_query_result_verify E st source q vq mq database st₁ hc hv] at h
      simp only [] at h
      have h₁ :
          (SqlProblem._run E
            (if py_truthy mq then
              (SqlProblem._run E (SqlProblem._run E st₁ database q false).2 database
                (mq.getD "") false).2
             else (SqlProblem._run E st₁ database q false).2)
            database (vq.getD "") true).1 = (res, err) := by
        have := congrArg Prod.fst h
        simpa using this
      have := run_none_iff E
        (if py_truthy mq then
          (SqlProblem._run E (SqlProblem._run E st₁ database q false).2 database
            (mq.getD "") false).2
         else (SqlProblem._run E st₁ database q false).2)
        database (vq.getD "") true
      rw [h₁] at this
      exact this

theorem conn_execute_frame {σ : Type} (E : Engine σ) (st : Store σ) (r : Ref) (q : String)
    (j : Nat) (hj : j ≠ r) :
    ((conn_execute E st r q).2)[j]? = st[j]? ∧ ((conn_execute E st r q).2).length = st.length :=
  ⟨List.getElem?_set_ne (Ne.symm hj), List.length_set _ _ _⟩

theorem conn_executescript_frame {σ : Type} (E : Engine σ) (st : Store σ) (r : Ref) (q : String)
    (j : Nat) (hj : j ≠ r) :
    ((conn_executescript E st r q).2)[j]? = st[j]? ∧
      ((conn_executescript E st r q).2).length = st.length :=
  ⟨List.getElem?_set_ne (Ne.symm hj), List.length_set _ _ _⟩

theorem execute_query_frame {σ : Type} (E : Engine σ) (st : Store σ) (r : Ref) (q : String)
    (b : Bool) (j : Nat) (hj : j ≠ r) :
    ((execute_query E st r q b).2)[j]? = st[j]? ∧
      ((execute_query E st r q b).2).length = st.length := by
  have h₁ := conn_execute_frame E st r q j hj
  unfold execute_query
  rcases hE : conn_execute E st r q with ⟨res, st'⟩
  rw [hE] at h₁
  cases res with
  | ok rows => simpa using h₁
  | error e =>
    cases e with
    | warning m =>
      by_cases hpw : py_startswith m only_one_statement_msg = true
      · cases b with
        | true => simp only [hpw, if_true, ite_true]; simpa using h₁
        | false =>
          have h₂ := conn_executescript_frame E st' r q j hj
          rcases hS : conn_executescript E st' r q with ⟨res2, st''⟩
          rw [hS] at h₂
          simp only [hpw, if_true, ite_true, hS]
          cases res2 <;> simp <;> constructor
          · exact h₂.1.trans h₁.1
          · exact h₂.2.trans h₁.2
          · exact h₂.1.trans h₁.1
          · exact h₂.2.trans h₁.2
      · simp only [hpw, if_false, Bool.false_eq_true, ite_false]
        simpa using h₁
    | error m => simpa using h₁

theorem run_frame {σ : Type} (E : Engine σ) (st : Store σ) (r : Ref) (q : String) (b : Bool)
    (j : Nat) (hj : j ≠ r) :
    ((SqlProblem._run E st r q b).2)[j]? = st[j]? ∧
      ((SqlProblem._run E st r q b).2).length = st.length := by
  have h₁ := execute_query_frame E st r q b j hj
  unfold SqlProblem._run
  rcases hE : execute_query E st r q b with ⟨res, st'⟩
  rw [hE] at h₁
  cases res <;> simpa using h₁

theorem clone_database_frame {σ : Type} (E : Engine σ) (st : Store σ) (source : Ref)
    (j : Nat) (hj : j < st.length) :
    ((SqlProblem.clone_database E st source).2)[j]? = st[j]? ∧
      ((SqlProblem.clone_database E st source).2).length = st.length + 1 ∧
      (∀ d, (SqlProblem.clone_database E st source).1 = .ok d → d = st.length) := by
  have hjne : j ≠ st.length := Nat.ne_of_lt hj
  have happ : (st ++ [E.emptyDb])[j]? = st[j]? := List.getElem?_append_left hj
  have h₂ := conn_executescript_frame E (st ++ [E.emptyDb]) st.length
    (String.join (conn_iterdump E (st ++ [E.emptyDb]) source)) j hjne
  unfold SqlProblem.clone_database connect_memory
  rcases hS : conn_executescript E (st ++ [E.emptyDb]) st.length
      (String.join (conn_iterdump E (st ++ [E.emptyDb]) source)) with ⟨res, st₂⟩
  rw [hS] at h₂
  cases res with
  | ok rows =>
    simp only [hS]
    refine ⟨h₂.1.trans happ, ?_, ?_⟩
    · rw [h₂.2]; simp
    · intro d hd
      simp at hd
      exact hd.symm
  | error e =>
    simp only [hS]
    refine ⟨h₂.1.trans happ, ?_, ?_⟩
    · rw [h₂.2]; simp
    · intro d hd
      simp at hd

theorem get_query_result_frame {σ : Type} (E : Engine σ) (st : Store σ) (source : Ref)
    (q : String) (vq mq : Option String) (j : Nat) (hj : j < st.length) :
    ((SqlProblem.get_query_result E st source q vq mq).2)[j]? = st[j]? ∧
      ((SqlProblem.get_query_result E st source q vq mq).2).length = st.length + 1 := by
  have hcl := clone_database_frame E st source j hj
  unfold SqlProblem.get_query_result
  rcases hc : SqlProblem.clone_database E st source with ⟨cres, st₁⟩
  rw [hc] at hcl
  cases cres with
  | error e => simpa using ⟨hcl.1, hcl.2.1⟩
  | ok database =>
    have hdb : database = st.length := hcl.2.2 database rfl
    have hjdb : j ≠ database := by rw [hdb]; exact Nat.ne_of_lt hj
    have hr₁ := run_frame E st₁ database q false j hjdb
    rcases hv : py_truthy vq with _ | _
    · simp only [hv, Bool.false_eq_true, if_false, ite_false]
      exact ⟨hr₁.1.trans hcl.1, by rw [hr₁.2, hcl.2.1]⟩
    · simp only [hv, if_true, ite_true]
      rcases hm : py_truthy mq with _ | _
      · simp only [hm, Bool.false_eq_true, if_false, ite_false]
        have hr₂ := run_frame E (SqlProblem._run E st₁ database q false).2 database
          (vq.getD "") true j hjdb
        exact ⟨hr₂.1.trans (hr₁.1.trans hcl.1), by rw [hr₂.2, hr₁.2, hcl.2.1]⟩
      · simp only [hm, if_true, ite_true]
        have hr₂ := run_frame E (SqlProblem._run E st₁ database q false).2 database
          (mq.getD "") false j hjdb
        have hr₃ := run_frame E
          (SqlProblem._run E (SqlProblem._run E st₁ database q false).2 database
            (mq.getD "") false).2 database (vq.getD "") true j hjdb
        exact ⟨hr₃.1.trans (hr₂.1.trans (hr₁.1.trans hcl.1)),
          by rw [hr₃.2, hr₂.2, hr₁.2, hcl.2.1]⟩

theorem attempt_frame {σ : Type} (E : Engine σ) (st : Store σ) (p : SqlProblem) (q : String)
    (j : Nat) (hj : j < st.length) :
    ((SqlProblem.attempt E st p q).2)[j]? = st[j]? ∧
      ((SqlProblem.attempt E st p q).2).length = st.length + 1 := by
  have hg := get_query_result_frame E st p.database q p.verify_query p.modification_query j hj
  unfold SqlProblem.attempt
  rcases hq : SqlProblem.get_query_result E st p.database q p.verify_query
      p.modification_query with ⟨res, st'⟩
  rw [hq] at hg
  cases res <;> simpa using hg

theorem init_frame {σ : Type} (E : Engine σ) (st : Store σ) (database : Ref)
    (answer_query : String) (vq mq : Option String) (ord : Bool)
    (j : Nat) (hj : j < st.length) :
    ((SqlProblem.init E st database answer_query vq mq ord).2)[j]? = st[j]? := by
  have hg := get_query_result_frame E st database answer_query vq mq j hj
  unfold SqlProblem.init
  rcases hq : SqlProblem.get_query_result E st database answer_query vq mq with ⟨res, st'⟩
  rw [hq] at hg
  cases res <;> simpa using hg.1

theorem attempt_many_frame {σ : Type} (E : Engine σ) (p : SqlProblem) :
    ∀ (qs : List String) (st : Store σ), p.database < st.length →
      (SqlProblem.attempt_many E st p qs)[p.database]? = st[p.database]? := by
  intro qs
  induction qs with
  | nil => intro st _; rfl
  | cons q qs ih =>
    intro st hdb
    have ha := attempt_frame E st p q p.database hdb
    have hstep : SqlProblem.attempt_many E st p (q :: qs)
        = SqlProblem.attempt_many E ((SqlProblem.attempt E st p q).2) p qs := rfl
    rw [hstep, ih ((SqlProblem.attempt E st p q).2) (by rw [ha.2]; exact Nat.lt_succ_of_lt hdb),
      ha.1]

theorem attempt_ok_inv {σ : Type} (E : Engine σ) (st : Store σ) (p : SqlProblem) (q : String)
    (sub ans : Option (List Row)) (err : Option String) (cmp : Bool) (st' : Store σ)
    (h : SqlProblem.attempt E st p q = (.ok (sub, ans, err, cmp), st')) :
    SqlProblem.get_query_result E st p.database q p.verify_query p.modification_query
      = (.ok (sub, err), st') ∧ ans = p.answer_result ∧
      cmp = compare_rows p.answer_result sub p.is_ordered := by
  unfold SqlProblem.attempt at h
  rcases hg : SqlProblem.get_query_result E st p.database q p.verify_query
      p.modification_query with ⟨gres, st₂⟩
  rw [hg] at h
  cases gres with
  | error e => simp at h
  | ok res =>
    simp only [Except.ok.injEq, Prod.mk.injEq] at h
    obtain ⟨⟨h1, h2, h3, h4⟩, h5⟩ := h
    refine ⟨?_, h2.symm, ?_⟩
    · rw [← h1, ← h3, h5]
    · rw [← h4, ← h1]

theorem run_verify_multi {σ : Type} (E : Engine σ) (st : Store σ) (r : Ref) (q : String)
    (m : String) (s' : σ)
    (hw : E.execute (getDb E st r) q = (.error (.warning m), s'))
    (hm : py_startswith m only_one_statement_msg = true) :
    SqlProblem._run E st r q true
      = ((none, some VerifyQeuryException.default_msg), st.set r s') := by
  simp [SqlProblem._run, execute_query, conn_execute, hw, hm, pyExcStr]

theorem get_query_result_ok_of_clone_ok {σ : Type} (E : Engine σ) (st : Store σ) (source : Ref)
    (q : String) (vq mq : Option String) (d : Ref) (st₁ : Store σ)
    (hc : SqlProblem.clone_database E st source = (.ok d, st₁)) :
    ∃ res st', SqlProblem.get_query_result E st source q vq mq = (.ok res, st') := by
  cases hv : py_truthy vq with
  | false => exact ⟨_, _, get_query_result_no_verify E st source q vq mq d st₁ hc hv⟩
  | true =>
    have hres := get_query_result_verify E st source q vq mq d st₁ hc hv
    exact ⟨_, _, hres⟩

theorem attempt_of_gqr {σ : Type} (E : Engine σ) (st : Store σ) (p : SqlProblem) (q : String)
    (res : Option (List Row) × Option String) (st₂ : Store σ)
    (hg : SqlProblem.get_query_result E st p.database q p.verify_query p.modification_query
      = (.ok res, st₂)) :
    SqlProblem.attempt E st p q
      = (.ok (res.1, p.answer_result, res.2,
              compare_rows p.answer_result res.1 p.is_ordered), st₂) := by
  simp [SqlProblem.attempt, hg]

/-!
Claim theorems.
-/

/-- C1, counterexample: a submission whose execution fails is reported with
comparison `true` (not `false`) when the cached answer result is empty: the
problem built on `EngA` caches `some []`, the failing submission yields rows
`none` and a populated error, and the comparison component is `true`. -/
theorem c1_counterexample :
    SqlProblem.init EngA [()] 0 "ANS" none none true = (.ok pA, [(), ()]) ∧
    SqlProblem.attempt EngA [(), ()] pA "BAD"
      = (.ok (none, some [], some "near Not: syntax error", true), [(), (), ()]) :=
  ⟨rfl, rfl⟩

/-- C1 (amended): when the submission chain fails (rows component `none`),
the error component is populated and the submission rows are absent rather
than partial; the comparison is `false` iff the cached answer result is
nonempty — independently of the ordering policy — and `true` when the cached
answer result is itself absent or empty. -/
theorem c1_amended {σ : Type} (E : Engine σ) (st : Store σ) (p : SqlProblem) (q : String)
    (sub ans : Option (List Row)) (err : Option String) (cmp : Bool) (st' : Store σ)
    (h : SqlProblem.attempt E st p q = (.ok (sub, ans, err, cmp), st'))
    (hsub : sub = none) :
    err ≠ none ∧ cmp = decide (p.answer_result.getD [] = []) := by
  obtain ⟨hg, -, hcmp⟩ := attempt_ok_inv E st p q sub ans err cmp st' h
  refine ⟨(get_query_result_ok_shape E st p.database q p.verify_query p.modification_query
    sub err st' hg).mp hsub, ?_⟩
  rw [hcmp, hsub, compare_rows_none_actual]

/-- Witness for C1 (amended) at the `EngA` scenario. -/
theorem c1_witness :
    some "near Not: syntax error" ≠ (none : Option String) ∧
    true = decide (pA.answer_result.getD [] = ([] : List Row)) :=
  c1_amended EngA [(), ()] pA "BAD" none (some []) (some "near Not: syntax error") true
    [(), (), ()] rfl rfl

/-- C2, counterexample: a problem whose answer chain fails at construction is
nonetheless constructed successfully — the error is discarded and the cached
answer result is silently absent, instead of the error propagating. -/
theorem c2_counterexample :
    SqlProblem.init EngB [()] 0 "SELECT * FROM Movie" none none true = (.ok pB, [(), ()]) ∧
    pB.answer_result = none ∧
    (SqlProblem.get_query_result EngB [()] 0 "SELECT * FROM Movie" none none).1
      = .ok (none, some "no such table: Movie") :=
  ⟨rfl, rfl, rfl⟩

/-- C2 (amended): an execution failure of the answer/modification/verification
chain at construction time is caught and discarded: construction returns a
problem whose cached answer result is absent; only a clone-replay failure
propagates to the caller. -/
theorem c2_amended {σ : Type} (E : Engine σ) (st : Store σ) (db : Ref) (aq : String)
    (vq mq : Option String) (ord : Bool) :
    (∀ msg st₂,
      SqlProblem.get_query_result E st db aq vq mq = (.ok (none, some msg), st₂) →
      SqlProblem.init E st db aq vq mq ord =
        (.ok { database := db, answer_query := aq, verify_query := vq,
               modification_query := mq, is_ordered := ord, answer_result := none }, st₂)) ∧
    (∀ e st₁, SqlProblem.clone_database E st db = (.error e, st₁) →
      SqlProblem.init E st db aq vq mq ord = (.error e, st₁)) := by
  constructor
  · intro msg st₂ h
    simp [SqlProblem.init, h]
  · intro e st₁ h
    simp [SqlProblem.init, get_query_result_clone_error E st db aq vq mq e st₁ h]

/-- Witness for C2 (amended) at the `EngB` scenario. -/
theorem c2_witness :
    SqlProblem.init EngB [()] 0 "SELECT * FROM Movie" none none true
      = (.ok { database := 0, answer_query := "SELECT * FROM Movie", verify_query := none,
               modification_query := none, is_ordered := true, answer_result := none },
         [(), ()]) :=
  (c2_amended EngB [()] 0 "SELECT * FROM Movie" none none true).1
    "no such table: Movie" [(), ()] rfl

/-- C3: if the engine signals the multi-statement condition for a query run
as a verification query, the executor yields the distinct
`VerifyQeuryException` message (never a generic one), with no rows, and the
`executescript` fallback is never consulted: the result is the same for every
script implementation. -/
theorem c3_thm {σ : Type} (E : Engine σ)
    (script : σ → String → Except EngExc (List Row) × σ)
    (st : Store σ) (r : Ref) (q : String) (m : String) (s' : σ)
    (hw : E.execute (getDb E st r) q = (.error (.warning m), s'))
    (hm : py_startswith m only_one_statement_msg = true) :
    SqlProblem._run { E with executescript := script } st r q true
      = ((none, some VerifyQeuryException.default_msg), st.set r s') :=
  run_verify_multi { E with executescript := script } st r q m s' hw hm

/-- Witness for C3 with sqlite's actual multi-statement warning text and a
script implementation that would visibly succeed if it were consulted. -/
theorem c3_witness :
    SqlProblem._run { EngD with executescript := fun _ _ => (.ok [], ()) } [()] 0
        "INSERT INTO t VALUES (1); SELECT 2" true
      = ((none, some VerifyQeuryException.default_msg), [()]) :=
  c3_thm EngD (fun _ _ => (.ok [], ())) [()] 0 "INSERT INTO t VALUES (1); SELECT 2"
    "You can only execute one statement at a time." () rfl (by decide)

/-- C4, counterexample: with a verification query configured, an engine error
raised while running the submission is not attached to the attempt result —
the error component is overwritten by the (successful) verification run and
comes back `none`. -/
theorem c4_counterexample :
    SqlProblem.init EngC [()] 0 "ANS" (some "VER") none true = (.ok pC, [(), ()]) ∧
    (EngC.execute () "SUB").1 = .error (.error "synerr") ∧
    SqlProblem.attempt EngC [(), ()] pC "SUB"
      = (.ok (some [[SqlVal.int 1]], some [[SqlVal.int 1]], none, true), [(), (), ()]) :=
  ⟨rfl, rfl, rfl⟩

/-- C4 (amended): the error component of an attempt is that of the last run
performed — the submission run when no verification query is configured, and
the verification run otherwise (submission errors are then overwritten and
modification errors discarded). -/
theorem c4_amended {σ : Type} (E : Engine σ) (st : Store σ) (p : SqlProblem) (q : String)
    (d : Ref) (st₁ : Store σ)
    (hc : SqlProblem.clone_database E st p.database = (.ok d, st₁)) :
    (py_truthy p.verify_query = false →
      ∃ cmp st', SqlProblem.attempt E st p q =
        (.ok ((SqlProblem._run E st₁ d q false).1.1, p.answer_result,
              (SqlProblem._run E st₁ d q false).1.2, cmp), st')) ∧
    (py_truthy p.verify_query = true →
      ∃ cmp st', SqlProblem.attempt E st p q =
        (.ok ((SqlProblem._run E
                (if py_truthy p.modification_query then
                  (SqlProblem._run E (SqlProblem._run E st₁ d q false).2 d
                    (p.modification_query.getD "") false).2
                 else (SqlProblem._run E st₁ d q false).2)
                d (p.verify_query.getD "") true).1.1,
              p.answer_result,
              (SqlProblem._run E
                (if py_truthy p.modification_query then
                  (SqlProblem._run E (SqlProblem._run E st₁ d q false).2 d
                    (p.modification_query.getD "") false).2
                 else (SqlProblem._run E st₁ d q false).2)
                d (p.verify_query.getD "") true).1.2, cmp), st')) := by
  constructor
  · intro hv
    have hg := get_query_result_no_verify E st p.database q p.verify_query
      p.modification_query d st₁ hc hv
    exact ⟨_, _, attempt_of_gqr E st p q _ _ hg⟩
  · intro hv
    have hg := get_query_result_verify E st p.database q p.verify_query
      p.modification_query d st₁ hc hv
    exact ⟨_, _, attempt_of_gqr E st p q _ _ hg⟩

/-- Witness for C4 (amended) at the `EngC` scenario: the attempt's rows and
error are those of the verification run (`some` row, error `none`), although
the submission itself failed. -/
theorem c4_witness :
    ∃ cmp st', SqlProblem.attempt EngC [(), ()] pC "SUB"
      = (.ok (some [[SqlVal.int 1]], pC.answer_result, none, cmp), st') :=
  (c4_amended EngC [(), ()] pC "SUB" 2 [(), (), ()] rfl).2 rfl

/-- C5: grading never mutates the reference database: constructing a problem
and running any number of submission attempts leave the store entry of the
reference connection exactly as it was (all writes go to freshly allocated
clones). -/
theorem c5_thm {σ : Type} (E : Engine σ) (st : Store σ) (db : Ref) (aq : String)
    (vq mq : Option String) (ord : Bool) (p : SqlProblem) (qs : List String)
    (hdb : db < st.length) (hp : p.database < st.length) :
    ((SqlProblem.init E st db aq vq mq ord).2)[db]? = st[db]? ∧
    (SqlProblem.attempt_many E st p qs)[p.database]? = st[p.database]? :=
  ⟨init_frame E st db aq vq mq ord db hdb, attempt_many_frame E p qs st hp⟩

/-- Witness for C5 on the `EngA` problem with two attempts. -/
theorem c5_witness :
    ((SqlProblem.init EngA [()] 0 "ANS" none none true).2)[0]? = ([()] : Store Unit)[0]? ∧
    (SqlProblem.attempt_many EngA [()] pA ["BAD", "ANS"])[pA.database]?
      = ([()] : Store Unit)[pA.database]? :=
  c5_thm EngA [()] 0 "ANS" none none true pA ["BAD", "ANS"] (by decide) (by decide)

/-- C6: whenever the two (absent-as-empty) row sequences have different
lengths, `compare_rows` returns `false`, for both ordering policies. -/
theorem c6_thm (expected actual : Option (List Row)) (is_ordered : Bool)
    (h : (expected.getD []).length ≠ (actual.getD []).length) :
    compare_rows expected actual is_ordered = false :=
  compare_rows_of_length_ne expected actual is_ordered h

/-- Witness for C6: one row against an absent result, unordered policy. -/
theorem c6_witness :
    ((some [row0] : Option (List Row)).getD []).length
        ≠ ((none : Option (List Row)).getD []).length ∧
    compare_rows (some [row0]) none false = false :=
  ⟨by decide, c6_thm (some [row0]) none false (by decide)⟩

/-- C7, counterexample: a palindromic sequence with two distinct rows is
equal to its reversal, so the ordered comparison returns `true`, refuting
the claim that two distinct rows suffice for it to return `false`. -/
theorem c7_counterexample :
    row0 ∈ Xpal ∧ row1 ∈ Xpal ∧ row0 ≠ row1 ∧
    compare_rows (some Xpal) (some Xpal.reverse) true = true := by
  refine ⟨by decide, by decide, by decide, rfl⟩

/-- C7 (amended): the ordered comparison of a sequence against its reversal
returns `false` exactly when the sequence differs from its reversal (having
two distinct rows is not sufficient; being a non-palindrome is). -/
theorem c7_amended (X : List Row) (h : X.reverse ≠ X) :
    compare_rows (some X) (some X.reverse) true = false := by
  have hlen : X.length = X.reverse.length := (List.length_reverse X).symm
  cases hc : compare_rows (some X) (some X.reverse) true with
  | false => rfl
  | true => exact absurd ((compare_rows_ordered_iff X X.reverse hlen).mp hc).symm h

/-- Witness for C7 (amended) on a two-row non-palindromic sequence. -/
theorem c7_witness :
    ([row0, row1] : List Row).reverse ≠ [row0, row1] ∧
    compare_rows (some [row0, row1]) (some ([row0, row1] : List Row).reverse) true = false :=
  ⟨by decide, c7_amended [row0, row1] (by decide)⟩

/-- C8: under the unordered policy both sequences are independently sorted by
the deterministic string key before pairwise comparison, so any sequence
compares `true` against its own reversal. -/
theorem c8_thm (X : List Row) :
    compare_rows (some X) (some X.reverse) false = true :=
  compare_rows_reverse_unordered_eq X

/-- C9: once the reference database clones successfully, an attempt never
propagates an exception: it returns the 4-tuple, with engine errors (and the
verification-contract violation) reported only through the error component. -/
theorem c9_thm {σ : Type} (E : Engine σ) (st : Store σ) (p : SqlProblem) (q : String)
    (d : Ref) (st₁ : Store σ)
    (hc : SqlProblem.clone_database E st p.database = (.ok d, st₁)) :
    ∃ sub err cmp st', SqlProblem.attempt E st p q
      = (.ok (sub, p.answer_result, err, cmp), st') := by
  obtain ⟨res, st', hg⟩ := get_query_result_ok_of_clone_ok E st p.database q
    p.verify_query p.modification_query d st₁ hc
  exact ⟨res.1, res.2, compare_rows p.answer_result res.1 p.is_ordered, st',
    attempt_of_gqr E st p q res st' hg⟩

/-- Witness for C9: a submission of invalid SQL against the `EngA` problem
still returns a 4-tuple. -/
theorem c9_witness :
    ∃ sub err cmp st', SqlProblem.attempt EngA [()] pA "BAD"
      = (.ok (sub, pA.answer_result, err, cmp), st') :=
  c9_thm EngA [()] pA "BAD" 1 [(), ()] rfl

/-- C10: comparing two absent result sets yields `true` for every ordering
policy, and consequently an attempt whose submission failed is reported with
comparison `true` whenever the cached answer result is absent or empty. -/
theorem c10_thm :
    (∀ ord : Bool, compare_rows none none ord = true) ∧
    (∀ {σ : Type} (E : Engine σ) (st : Store σ) (p : SqlProblem) (q : String)
      (sub ans : Option (List Row)) (err : Option String) (cmp : Bool) (st' : Store σ),
      SqlProblem.attempt E st p q = (.ok (sub, ans, err, cmp), st') →
      sub = none → (p.answer_result = none ∨ p.answer_result = some []) →
      cmp = true) := by
  constructor
  · intro ord
    rw [compare_rows_none_actual]
    simp
  · intro σ E st p q sub ans err cmp st' h hsub hans
    obtain ⟨-, -, hcmp⟩ := attempt_ok_inv E st p q sub ans err cmp st' h
    rw [hcmp, hsub, compare_rows_none_actual]
    rcases hans with h₀ | h₀ <;> rw [h₀] <;> simp

/-- Witness for C10: the absent-vs-absent comparison, and the `EngA` failed
attempt reported with comparison `true` (its cached answer result is empty). -/
theorem c10_witness :
    compare_rows none none true = true ∧ (true : Bool) = true :=
  ⟨c10_thm.1 true,
   c10_thm.2 EngA [(), ()] pA "BAD" none (some []) (some "near Not: syntax error") true
     [(), (), ()] rfl rfl (Or.inr rfl)⟩

end SqlGrader
